import Mathlib

/-!
Shallow embedding of `heavyprofile/util.py` (mozilla/heavy-profile).

Byte strings (`bytes` in the source) are modelled as `List Nat`, one entry
per byte.  Snapshot keys (`current_files` / `previous_files` dict keys) are
modelled directly as byte strings: the source converts each `str` key `name`
to bytes with `_b(name) = bytes(name, "utf8")` before recording it, and that
conversion is injective, so we work with the encoded form throughout.
Python dict iteration order is modelled by the order of an association list.
-/

/-- Byte strings (`bytes` values of the source). -/
abbrev Bytes := List Nat

/-- Bytes of an ASCII string literal (used only for the ASCII tags of the
source such as `b"NEW:"`; on ASCII text this agrees with UTF-8). -/
def asc (s : String) : Bytes := s.data.map Char.toNat

/-- ASCII whitespace recognised by Python's `bytes.strip()`:
space, tab, newline, carriage return, vertical tab, form feed. -/
def isSpaceB (b : Nat) : Bool :=
  b == 32 || b == 9 || b == 10 || b == 13 || b == 11 || b == 12

/-- Python `bytes.strip()`: drop leading and trailing ASCII whitespace. -/
def stripBytes (l : Bytes) : Bytes :=
  ((l.dropWhile isSpaceB).reverse.dropWhile isSpaceB).reverse

/-- One file-metadata entry of a snapshot.  In the source a snapshot value
`info` is queried only as `info[0].get_info()['chksum']`; we model that
access as the field `chksum` and keep an opaque `payload` for the rest of
the metadata (the part that is returned to the caller untouched). -/
structure FileInfo where
  chksum : String
  payload : Nat
deriving DecidableEq, Repr

/-- A snapshot (`current_files` / `previous_files`): a Python dict from path
to metadata, modelled as an association list in iteration order. -/
abbrev Snapshot := List (Bytes × FileInfo)

/-- State of a `DiffInfo` object: the `_info` record list and the three
counters (field order as initialised in `DiffInfo.__init__`). -/
structure DiffInfo where
  _info : List Bytes
  changed : Nat
  new : Nat
  deleted : Nat
deriving DecidableEq, Repr

/-- The constructor `DiffInfo.__init__`: empty record list, zero counters. -/
def DiffInfo.init : DiffInfo := { _info := [], changed := 0, new := 0, deleted := 0 }

/-- Method `DiffInfo.load`: reset `_info`, then append every line of
`data.split(b'\n')` that is non-empty after `strip()`.  The counters are
not touched by the source.  The loop is expressed as map-then-filter, which
appends exactly the same elements in the same order. -/
def DiffInfo.load (d : DiffInfo) (data : Bytes) : DiffInfo :=
  { d with _info := ((data.splitOn 10).map stripBytes).filter (fun l => !l.isEmpty) }

/-- Method `DiffInfo.dump`: `b'\n'.join(self._info)`. -/
def DiffInfo.dump (d : DiffInfo) : Bytes :=
  List.intercalate [10] d._info

/-- Method `DiffInfo.__iter__`: yields `change.split(b':')` for each record. -/
def DiffInfo.iterRecords (d : DiffInfo) : List (List Bytes) :=
  d._info.map (fun change => change.splitOn 58)

/-- Method `DiffInfo.__len__`. -/
def DiffInfo.size (d : DiffInfo) : Nat := d._info.length

/-- Method `DiffInfo.add_changed`: bump `changed`, append `b"CHANGED:%s" % name`. -/
def DiffInfo.add_changed (d : DiffInfo) (name : Bytes) : DiffInfo :=
  { d with changed := d.changed + 1, _info := d._info ++ [asc "CHANGED:" ++ name] }

/-- Method `DiffInfo.add_new`: bump `new`, append `b"NEW:%s" % name`. -/
def DiffInfo.add_new (d : DiffInfo) (name : Bytes) : DiffInfo :=
  { d with new := d.new + 1, _info := d._info ++ [asc "NEW:" ++ name] }

/-- Method `DiffInfo.add_deleted`: bump `deleted`, append `b"DELETED:%s" % name`. -/
def DiffInfo.add_deleted (d : DiffInfo) (name : Bytes) : DiffInfo :=
  { d with deleted := d.deleted + 1, _info := d._info ++ [asc "DELETED:" ++ name] }

/-- First loop of `DiffInfo.update`: walk `current_files`; a path absent
from `previous_files` is recorded NEW and its metadata collected; a path
present with a different checksum is recorded CHANGED and collected; a path
present with an equal checksum is skipped.  Returns the updated state and
the collected `files` list. -/
def DiffInfo.updateLoop1 (previous_files : Snapshot) :
    DiffInfo → Snapshot → DiffInfo × List FileInfo
  | d, [] => (d, [])
  | d, (name, info) :: rest =>
    match previous_files.lookup name with
    | none =>
      let r := DiffInfo.updateLoop1 previous_files (d.add_new name) rest
      (r.1, info :: r.2)
    | some old =>
      if old.chksum ≠ info.chksum then
        let r := DiffInfo.updateLoop1 previous_files (d.add_changed name) rest
        (r.1, info :: r.2)
      else
        DiffInfo.updateLoop1 previous_files d rest

/-- Second loop of `DiffInfo.update`: walk `previous_files`; a path absent
from `current_files` is recorded DELETED. -/
def DiffInfo.updateLoop2 (current_files : Snapshot) :
    DiffInfo → Snapshot → DiffInfo
  | d, [] => d
  | d, (name, _) :: rest =>
    match current_files.lookup name with
    | none => DiffInfo.updateLoop2 current_files (d.add_deleted name) rest
    | some _ => DiffInfo.updateLoop2 current_files d rest

/-- Method `DiffInfo.update(current_files, previous_files)`: the two loops
in sequence; returns the new state together with the `files` list the
source returns. -/
def DiffInfo.update (d : DiffInfo) (current_files previous_files : Snapshot) :
    DiffInfo × List FileInfo :=
  let r := DiffInfo.updateLoop1 previous_files d current_files
  (DiffInfo.updateLoop2 current_files r.1 previous_files, r.2)

/-- Record tags of the serialized format. -/
inductive Tag where
  | NEW
  | CHANGED
  | DELETED
deriving DecidableEq, Repr

/-- Byte rendering of a tag. -/
def renderTag : Tag → Bytes
  | .NEW => asc "NEW"
  | .CHANGED => asc "CHANGED"
  | .DELETED => asc "DELETED"

/-- Byte rendering of a (tag, path) record: `TAG:path`. -/
def renderRecord (t : Tag) (p : Bytes) : Bytes :=
  renderTag t ++ asc ":" ++ p

/-- Tag part of a serialized record: the bytes before the first colon
(as observed via `DiffInfo.__iter__`, which splits on `b':'`). -/
def tagOf (r : Bytes) : Bytes := r.takeWhile (fun b => b != 58)

/-- Number of held records classified under tag `t`. -/
def countTag (t : Tag) (info : List Bytes) : Nat :=
  (info.filter (fun r => tagOf r == renderTag t)).length

/-- Counter invariant: each counter equals the number of held records whose
tag is the corresponding kind. -/
def countersMatch (d : DiffInfo) : Prop :=
  d.new = countTag .NEW d._info ∧
  d.changed = countTag .CHANGED d._info ∧
  d.deleted = countTag .DELETED d._info

instance (d : DiffInfo) : Decidable (countersMatch d) := by
  unfold countersMatch; infer_instance

/-- Uniform view of the three `add_*` methods, used to state the
characterization of `update`. -/
def addTagged (d : DiffInfo) : Tag × Bytes → DiffInfo
  | (.NEW, p) => d.add_new p
  | (.CHANGED, p) => d.add_changed p
  | (.DELETED, p) => d.add_deleted p

/-- Spec-side characterization (from the spec's words) of the NEW/CHANGED
records emitted while scanning `current`, each paired with the metadata
entry included in the persist-list: a path absent from `previous` yields
`NEW`, a path present with a different checksum yields `CHANGED`, a path
present with an equal checksum yields nothing. -/
def specNewChanged (current previous : Snapshot) : List ((Tag × Bytes) × FileInfo) :=
  current.filterMap (fun p =>
    match previous.lookup p.1 with
    | none => some ((Tag.NEW, p.1), p.2)
    | some old => if old.chksum ≠ p.2.chksum then some ((Tag.CHANGED, p.1), p.2) else none)

/-- Spec-side characterization of the DELETED records emitted while scanning
`previous`: every path absent from `current`. -/
def specDeleted (current previous : Snapshot) : List (Tag × Bytes) :=
  previous.filterMap (fun p =>
    match current.lookup p.1 with
    | none => some (Tag.DELETED, p.1)
    | some _ => none)

/-- Spec-side characterization of all records emitted by one `update` call:
all NEW/CHANGED records (in `current` iteration order) followed by all
DELETED records (in `previous` iteration order). -/
def specRecords (current previous : Snapshot) : List (Tag × Bytes) :=
  (specNewChanged current previous).map Prod.fst ++ specDeleted current previous

/-- Spec-side characterization of the persist-list returned by `update`:
the metadata entries of exactly the NEW/CHANGED files, in emission order. -/
def specFiles (current previous : Snapshot) : List FileInfo :=
  (specNewChanged current previous).map Prod.snd

/-!
Embedding of the fetcher `download_file` (and its helper `check_exists`).

The network is modelled by a `RemoteEnv` record holding the responses the
one call observes: the status of the `HEAD url` probe, the `.text` of
`GET (url + ".sha256")` (for a missing companion resource this is the body
of the error page — `requests.get` does not raise on a 404, the source
reads `.text` unconditionally), the `content-length` header of the
streamed `GET url`, and the streamed bytes themselves.  The local
filesystem at the target path is an `Option Bytes` (present file content
or absence); the function returns the final file state next to its result.
-/

/-- Modelled from the spec: `Signer.checksum` (from `heavyprofile/signing.py`,
which is not under `src/`) computes a streaming SHA-256 hex digest of a
file's contents.  We abstract it as an arbitrary function from file
contents to hex string, passed to `download_file` as a parameter; theorems
about the fetcher hold for every such function. -/
def ChecksumFun := Bytes → String

/-- Network responses observed by one `download_file` call. -/
structure RemoteEnv where
  headStatus : Nat
  shaText : String
  contentLength : Option Nat
  content : Bytes
deriving Repr

/-- Function `check_exists` (with `server=None`, as `download_file` calls
it): `requests.head(archive).status_code == 200`. -/
def check_exists (env : RemoteEnv) : Bool :=
  env.headStatus == 200

/-- Errors raised by `download_file`: `ArchiveNotFound(url)` when the HEAD
probe fails, the `TypeError` from `int(None)` when the response carries no
`content-length` header, and `ArchiveError(target)` on checksum mismatch. -/
inductive DownloadError where
  | ArchiveNotFound (url : String)
  | TypeErrorIntNone
  | ArchiveError (target : String)
deriving DecidableEq, Repr

/-- Function `download_file(url, target, check_file)`.  Returns the result
(`target` path or raised error) together with the final content of the
file at the target path. -/
def download_file (chk : ChecksumFun) (env : RemoteEnv) (onDisk : Option Bytes)
    (url : String) (target : Option String) (check_file : Bool) :
    Except DownloadError String × Option Bytes :=
  if !check_exists env then
    (.error (.ArchiveNotFound url), onDisk)
  else
    -- target = url.split('/')[-1] when no target is supplied
    let target := match target with
      | none => (url.splitOn "/").getLastD ""
      | some t => t
    -- check = requests.get(url + '.sha256').text (only read under check_file)
    let check : String := env.shaText
    -- if os.path.exists(target): early returns of the cached copy
    let cached : Bool := match onDisk with
      | some data =>
        if !check_file then true
        else decide (chk data = check)
      | none => false
    if cached then
      (.ok target, onDisk)
    else
      -- total_length = int(req.headers.get('content-length')):
      -- int(None) raises TypeError when the header is absent
      match env.contentLength with
      | none => (.error .TypeErrorIntNone, onDisk)
      | some _ =>
        -- chunked write loop: the file now holds the streamed bytes
        let onDisk := some env.content
        if check_file ∧ check ≠ chk env.content then
          (.error (.ArchiveError target), onDisk)
        else
          (.ok target, onDisk)

/-!
Characterization of `DiffInfo.update`: one call appends exactly the
rendered `specRecords` to `_info`, bumps each counter by the number of
emitted records of its kind, and returns `specFiles` as the persist-list.
-/

theorem addTagged_info (d : DiffInfo) (t : Tag) (p : Bytes) :
    (addTagged d (t, p))._info = d._info ++ [renderRecord t p] := by
  cases t <;> rfl

theorem addTagged_new (d : DiffInfo) (t : Tag) (p : Bytes) :
    (addTagged d (t, p)).new = d.new + (if t = .NEW then 1 else 0) := by
  cases t <;> rfl

theorem addTagged_changed (d : DiffInfo) (t : Tag) (p : Bytes) :
    (addTagged d (t, p)).changed = d.changed + (if t = .CHANGED then 1 else 0) := by
  cases t <;> rfl

theorem addTagged_deleted (d : DiffInfo) (t : Tag) (p : Bytes) :
    (addTagged d (t, p)).deleted = d.deleted + (if t = .DELETED then 1 else 0) := by
  cases t <;> rfl

theorem foldl_addTagged_info : ∀ (recs : List (Tag × Bytes)) (d : DiffInfo),
    (recs.foldl addTagged d)._info
      = d._info ++ recs.map (fun tp => renderRecord tp.1 tp.2)
  | [], d => by simp
  | (t, p) :: rest, d => by
    rw [List.foldl_cons, foldl_addTagged_info rest, addTagged_info]
    simp

theorem foldl_addTagged_new : ∀ (recs : List (Tag × Bytes)) (d : DiffInfo),
    (recs.foldl addTagged d).new
      = d.new + (recs.filter (fun tp => tp.1 == Tag.NEW)).length
  | [], d => by simp
  | (t, p) :: rest, d => by
    rw [List.foldl_cons, foldl_addTagged_new rest, addTagged_new]
    cases t <;> (simp [List.filter_cons]; try omega)

theorem foldl_addTagged_changed : ∀ (recs : List (Tag × Bytes)) (d : DiffInfo),
    (recs.foldl addTagged d).changed
      = d.changed + (recs.filter (fun tp => tp.1 == Tag.CHANGED)).length
  | [], d => by simp
  | (t, p) :: rest, d => by
    rw [List.foldl_cons, foldl_addTagged_changed rest, addTagged_changed]
    cases t <;> (simp [List.filter_cons]; try omega)

theorem foldl_addTagged_deleted : ∀ (recs : List (Tag × Bytes)) (d : DiffInfo),
    (recs.foldl addTagged d).deleted
      = d.deleted + (recs.filter (fun tp => tp.1 == Tag.DELETED)).length
  | [], d => by
    simp
  | (t, p) :: rest, d => by
    rw [List.foldl_cons, foldl_addTagged_deleted rest, addTagged_deleted]
    cases t <;> (simp [List.filter_cons]; try omega)

theorem updateLoop1_eq (previous : Snapshot) : ∀ (cur : Snapshot) (d : DiffInfo),
    DiffInfo.updateLoop1 previous d cur
      = (((specNewChanged cur previous).map Prod.fst).foldl addTagged d,
         (specNewChanged cur previous).map Prod.snd)
  | [], d => by simp [DiffInfo.updateLoop1, specNewChanged]
  | (name, info) :: rest, d => by
    cases h : previous.lookup name with
    | none =>
      simp only [DiffInfo.updateLoop1, h, specNewChanged, List.filterMap_cons]
      rw [updateLoop1_eq previous rest (d.add_new name)]
      simp only [specNewChanged, List.map_cons, List.foldl_cons]
      rfl
    | some old =>
      simp only [DiffInfo.updateLoop1, h, specNewChanged, List.filterMap_cons]
      by_cases hc : old.chksum ≠ info.chksum
      · simp only [if_pos hc]
        rw [updateLoop1_eq previous rest (d.add_changed name)]
        simp only [specNewChanged, List.map_cons, List.foldl_cons]
        rfl
      · simp only [if_neg hc]
        rw [updateLoop1_eq previous rest d]
        simp only [specNewChanged]

theorem updateLoop2_eq (current : Snapshot) : ∀ (prev : Snapshot) (d : DiffInfo),
    DiffInfo.updateLoop2 current d prev
      = (specDeleted current prev).foldl addTagged d
  | [], d => by simp [DiffInfo.updateLoop2, specDeleted]
  | (name, info) :: rest, d => by
    cases h : current.lookup name with
    | none =>
      simp only [DiffInfo.updateLoop2, h, specDeleted, List.filterMap_cons]
      rw [updateLoop2_eq current rest (d.add_deleted name)]
      simp only [specDeleted, List.foldl_cons]
      rfl
    | some old =>
      simp only [DiffInfo.updateLoop2, h, specDeleted, List.filterMap_cons]
      rw [updateLoop2_eq current rest d]
      simp only [specDeleted]

theorem update_eq (d : DiffInfo) (cur prev : Snapshot) :
    d.update cur prev
      = ((specRecords cur prev).foldl addTagged d, specFiles cur prev) := by
  simp [DiffInfo.update, updateLoop1_eq, updateLoop2_eq, specRecords, specFiles,
    List.foldl_append]

theorem update_info (d : DiffInfo) (cur prev : Snapshot) :
    ((d.update cur prev).1)._info
      = d._info ++ (specRecords cur prev).map (fun tp => renderRecord tp.1 tp.2) := by
  rw [update_eq]
  exact foldl_addTagged_info _ d

theorem update_new (d : DiffInfo) (cur prev : Snapshot) :
    ((d.update cur prev).1).new
      = d.new + ((specRecords cur prev).filter (fun tp => tp.1 == Tag.NEW)).length := by
  rw [update_eq]
  exact foldl_addTagged_new _ d

theorem update_changed (d : DiffInfo) (cur prev : Snapshot) :
    ((d.update cur prev).1).changed
      = d.changed
        + ((specRecords cur prev).filter (fun tp => tp.1 == Tag.CHANGED)).length := by
  rw [update_eq]
  exact foldl_addTagged_changed _ d

theorem update_deleted (d : DiffInfo) (cur prev : Snapshot) :
    ((d.update cur prev).1).deleted
      = d.deleted
        + ((specRecords cur prev).filter (fun tp => tp.1 == Tag.DELETED)).length := by
  rw [update_eq]
  exact foldl_addTagged_deleted _ d

theorem update_files (d : DiffInfo) (cur prev : Snapshot) :
    (d.update cur prev).2 = specFiles cur prev := by
  rw [update_eq]

/-!
Association-list lookup facts (Python dict membership and subscript), used
for the order-independence property.
-/

theorem lookup_mem : ∀ {l : Snapshot} {k : Bytes} {v : FileInfo},
    l.lookup k = some v → (k, v) ∈ l
  | [], _, _, h => by simp [List.lookup] at h
  | (a, b) :: rest, k, v, h => by
    by_cases hk : k = a
    · subst hk
      simp [List.lookup] at h
      simp [h]
    · have hk' : (k == a) = false := beq_false_of_ne hk
      simp [List.lookup, hk'] at h
      exact List.mem_cons_of_mem _ (lookup_mem h)

theorem mem_lookup : ∀ {l : Snapshot} {k : Bytes} {v : FileInfo},
    (l.map Prod.fst).Nodup → (k, v) ∈ l → l.lookup k = some v
  | [], _, _, _, h => by simp at h
  | (a, b) :: rest, k, v, hn, h => by
    rw [List.map_cons, List.nodup_cons] at hn
    rcases List.mem_cons.mp h with h1 | h1
    · cases h1
      simp [List.lookup]
    · have hk : k ≠ a := by
        intro he
        subst he
        exact hn.1 (List.mem_map.mpr ⟨(k, v), h1, rfl⟩)
      have hk' : (k == a) = false := beq_false_of_ne hk
      simp [List.lookup, hk']
      exact mem_lookup hn.2 h1

theorem lookup_none : ∀ {l : Snapshot} {k : Bytes},
    l.lookup k = none ↔ k ∉ l.map Prod.fst
  | [], k => by simp [List.lookup]
  | (a, b) :: rest, k => by
    by_cases hk : k = a
    · subst hk
      simp [List.lookup]
    · have hk' : (k == a) = false := beq_false_of_ne hk
      simp [List.lookup, hk', lookup_none, hk]

theorem perm_lookup {l1 l2 : Snapshot} (hp : l1.Perm l2)
    (hn : (l1.map Prod.fst).Nodup) (k : Bytes) :
    l1.lookup k = l2.lookup k := by
  have hn2 : (l2.map Prod.fst).Nodup := ((hp.map Prod.fst).nodup_iff).mp hn
  cases h1 : l1.lookup k with
  | none =>
    have : k ∉ l2.map Prod.fst := by
      intro hmem
      exact (lookup_none.mp h1) (((hp.map Prod.fst).mem_iff).mpr hmem)
    exact (lookup_none.mpr this).symm
  | some v =>
    exact (mem_lookup hn2 (hp.mem_iff.mp (lookup_mem h1))).symm

/-!
Whitespace and serialization facts: behaviour of `stripBytes` and the
`dump`/`load` round trip.
-/

theorem dropWhile_self_of_head (p : Nat → Bool) :
    ∀ (l : Bytes), (∀ b, l.head? = some b → p b = false) → l.dropWhile p = l
  | [], _ => rfl
  | a :: l, h => by
    have ha : p a = false := h a rfl
    simp [List.dropWhile_cons, ha]

theorem head?_dropWhile_false (p : Nat → Bool) (l : Bytes) (b : Nat)
    (hb : (l.dropWhile p).head? = some b) : p b = false := by
  have h := List.head?_dropWhile_not p l
  rw [hb] at h
  exact h

theorem getLast?_dropWhile (p : Nat → Bool) :
    ∀ (l : Bytes), l.dropWhile p ≠ [] → (l.dropWhile p).getLast? = l.getLast?
  | [], h => by simp at h
  | a :: l, h => by
    by_cases hp : p a
    · rw [List.dropWhile_cons, if_pos hp] at h ⊢
      have hl : l ≠ [] := by
        intro he
        subst he
        simp [List.dropWhile] at h
      cases l with
      | nil => exact absurd rfl hl
      | cons b l' =>
        rw [getLast?_dropWhile p (b :: l') h, List.getLast?_cons_cons]
    · rw [List.dropWhile_cons, if_neg hp]

theorem stripBytes_head (l : Bytes) (b : Nat)
    (hb : (stripBytes l).head? = some b) : isSpaceB b = false := by
  unfold stripBytes at hb
  rw [List.head?_reverse] at hb
  have hne : (l.dropWhile isSpaceB).reverse.dropWhile isSpaceB ≠ [] := by
    intro he
    rw [he] at hb
    simp at hb
  rw [getLast?_dropWhile _ _ hne, List.getLast?_reverse] at hb
  exact head?_dropWhile_false _ _ _ hb

theorem stripBytes_last (l : Bytes) (b : Nat)
    (hb : (stripBytes l).getLast? = some b) : isSpaceB b = false := by
  unfold stripBytes at hb
  rw [List.getLast?_reverse] at hb
  exact head?_dropWhile_false _ _ _ hb

theorem stripBytes_self (l : Bytes)
    (h1 : ∀ b, l.head? = some b → isSpaceB b = false)
    (h2 : ∀ b, l.getLast? = some b → isSpaceB b = false) :
    stripBytes l = l := by
  unfold stripBytes
  rw [dropWhile_self_of_head _ l h1]
  have e2 : l.reverse.dropWhile isSpaceB = l.reverse := by
    apply dropWhile_self_of_head
    intro b hb
    rw [List.head?_reverse] at hb
    exact h2 b hb
  rw [e2, List.reverse_reverse]

/-- Serialization-safe path: contains no newline byte and does not end in
ASCII whitespace.  Records whose paths satisfy this survive the
`dump`/`load` round trip unchanged. -/
def goodPath (n : Bytes) : Bool :=
  n.all (fun b => b != 10) && !((n.getLast?.map isSpaceB).getD false)

theorem renderRecord_ne_nil (t : Tag) (p : Bytes) : renderRecord t p ≠ [] := by
  cases t <;> simp [renderRecord, renderTag, asc]

theorem renderRecord_head (t : Tag) (p : Bytes) (b : Nat)
    (hb : (renderRecord t p).head? = some b) : isSpaceB b = false := by
  cases t <;> (simp [renderRecord, renderTag, asc] at hb; subst hb; decide)

theorem renderRecord_last (t : Tag) (p : Bytes) (hp : goodPath p = true)
    (b : Nat) (hb : (renderRecord t p).getLast? = some b) : isSpaceB b = false := by
  cases hpn : p with
  | nil =>
    subst hpn
    cases t <;> (simp [renderRecord, renderTag, asc] at hb; subst hb; decide)
  | cons q p' =>
    subst hpn
    obtain ⟨c, hc⟩ : ∃ c, (q :: p').getLast? = some c := by
      cases hx : (q :: p').getLast? with
      | none => simp at hx
      | some c => exact ⟨c, rfl⟩
    rw [renderRecord, List.append_assoc, List.getLast?_append, List.getLast?_append,
      hc, Option.or_some, Option.or_some] at hb
    cases hb
    unfold goodPath at hp
    rw [Bool.and_eq_true] at hp
    rw [hc] at hp
    simpa using hp.2

theorem renderRecord_no_newline (t : Tag) (p : Bytes) (hp : goodPath p = true) :
    ∀ b ∈ renderRecord t p, b ≠ 10 := by
  intro b hb
  unfold goodPath at hp
  rw [Bool.and_eq_true, List.all_eq_true] at hp
  rw [renderRecord, List.append_assoc, List.mem_append] at hb
  rcases hb with hb | hb
  · cases t <;> (simp [renderTag, asc] at hb; omega)
  · rw [List.mem_append] at hb
    rcases hb with hb | hb
    · simp [asc] at hb
      omega
    · have := hp.1 b hb
      simpa using this

theorem load_dump_of_good (d : DiffInfo)
    (hne : ∀ r ∈ d._info, r ≠ [])
    (h10 : ∀ r ∈ d._info, ∀ b ∈ r, b ≠ 10)
    (hstrip : ∀ r ∈ d._info, stripBytes r = r) :
    (d.load d.dump)._info = d._info := by
  by_cases hnil : d._info = []
  · simp only [DiffInfo.load, DiffInfo.dump, hnil]
    decide
  · have hs : (List.intercalate [10] d._info).splitOn 10 = d._info := by
      apply List.splitOn_intercalate
      · intro l hl hmem
        exact h10 l hl 10 hmem rfl
      · exact hnil
    simp only [DiffInfo.load, DiffInfo.dump]
    rw [hs]
    have hmap : d._info.map stripBytes = d._info := by
      rw [List.map_congr_left hstrip]
      simp
    rw [hmap]
    rw [List.filter_eq_self.mpr]
    intro r hr
    have := hne r hr
    simp [List.isEmpty_iff, this]

/-!
Tag classification of rendered records and preservation of the counter
invariant by `update`.
-/

theorem tagOf_renderRecord (t : Tag) (p : Bytes) :
    tagOf (renderRecord t p) = renderTag t := by
  cases t <;> rfl

theorem renderTag_beq (t t' : Tag) : (renderTag t == renderTag t') = (t == t') := by
  cases t <;> cases t' <;> decide

theorem countTag_append (t : Tag) (l1 l2 : List Bytes) :
    countTag t (l1 ++ l2) = countTag t l1 + countTag t l2 := by
  simp [countTag, List.filter_append]

theorem countTag_map_render (t : Tag) : ∀ (recs : List (Tag × Bytes)),
    countTag t (recs.map (fun tp => renderRecord tp.1 tp.2))
      = (recs.filter (fun tp => tp.1 == t)).length
  | [] => rfl
  | (t', p) :: rest => by
    have ih := countTag_map_render t rest
    simp only [List.map_cons, countTag, List.filter_cons, tagOf_renderRecord,
      renderTag_beq] at ih ⊢
    by_cases h : (t' == t) = true
    · simp [h, ih]
    · rw [Bool.not_eq_true] at h
      simp [h, ih]

theorem update_countersMatch (d : DiffInfo) (cur prev : Snapshot)
    (h : countersMatch d) : countersMatch ((d.update cur prev).1) := by
  obtain ⟨h1, h2, h3⟩ := h
  refine ⟨?_, ?_, ?_⟩
  · rw [update_new, update_info, countTag_append, countTag_map_render, h1]
  · rw [update_changed, update_info, countTag_append, countTag_map_render, h2]
  · rw [update_deleted, update_info, countTag_append, countTag_map_render, h3]

/-- Paths of the records emitted by `update` all come from the keys of one
of the two snapshots. -/
theorem specRecords_path_mem (cur prev : Snapshot) (t : Tag) (p : Bytes)
    (h : (t, p) ∈ specRecords cur prev) :
    p ∈ cur.map Prod.fst ∨ p ∈ prev.map Prod.fst := by
  rw [specRecords, List.mem_append] at h
  rcases h with h | h
  · left
    rw [List.mem_map] at h
    obtain ⟨x, hx, he⟩ := h
    rw [specNewChanged, List.mem_filterMap] at hx
    obtain ⟨a, ha, hfa⟩ := hx
    rw [List.mem_map]
    refine ⟨a, ha, ?_⟩
    split at hfa
    · cases hfa
      cases he
      rfl
    · split at hfa
      · cases hfa
        cases he
        rfl
      · cases hfa
  · right
    rw [specDeleted, List.mem_filterMap] at h
    obtain ⟨a, ha, hfa⟩ := h
    rw [List.mem_map]
    refine ⟨a, ha, ?_⟩
    split at hfa
    · cases hfa
      rfl
    · cases hfa

theorem init_info : DiffInfo.init._info = [] := rfl

theorem init_new : DiffInfo.init.new = 0 := rfl

theorem init_changed : DiffInfo.init.changed = 0 := rfl

theorem init_deleted : DiffInfo.init.deleted = 0 := rfl

theorem renderRecord_inj (t t' : Tag) (p p' : Bytes)
    (h : renderRecord t p = renderRecord t' p') : t = t' ∧ p = p' := by
  cases t <;> cases t' <;> simp_all [renderRecord, renderTag, asc]

/-- With duplicate-free keys (a Python dict), one key has one value. -/
theorem nodup_key_unique {l : Snapshot} (hn : (l.map Prod.fst).Nodup)
    {k : Bytes} {v1 v2 : FileInfo} (h1 : (k, v1) ∈ l) (h2 : (k, v2) ∈ l) :
    v1 = v2 := by
  have e1 := mem_lookup hn h1
  have e2 := mem_lookup hn h2
  rw [e1] at e2
  cases e2
  rfl

/-- A path present in both snapshots with an equal checksum produces no
record of any kind. -/
theorem unchanged_no_record (cur prev : Snapshot)
    (hcn : (cur.map Prod.fst).Nodup) (hpn : (prev.map Prod.fst).Nodup)
    (name : Bytes) (info old : FileInfo)
    (hmc : (name, info) ∈ cur) (hmp : (name, old) ∈ prev)
    (hchk : old.chksum = info.chksum) :
    ∀ t, (t, name) ∉ specRecords cur prev := by
  intro t hmem
  rw [specRecords, List.mem_append] at hmem
  rcases hmem with h | h
  · rw [List.mem_map] at h
    obtain ⟨x, hx, he⟩ := h
    rw [specNewChanged, List.mem_filterMap] at hx
    obtain ⟨a, ha, hfa⟩ := hx
    split at hfa
    · rename_i hl
      cases hfa
      have hp : a.1 = name := by
        have := congrArg Prod.snd he
        simpa using this
      rw [hp] at hl
      exact (lookup_none.mp hl) (List.mem_map.mpr ⟨(name, old), hmp, rfl⟩)
    · rename_i old' hl
      split at hfa
      · rename_i hcond
        cases hfa
        have hp : a.1 = name := by
          have := congrArg Prod.snd he
          simpa using this
        have ha2 : a = (name, info) := by
          have : a = (a.1, a.2) := rfl
          rw [this, hp]
          have := nodup_key_unique hcn (hp ▸ (this ▸ ha) : (name, a.2) ∈ cur) hmc
          rw [this]
        rw [hp] at hl
        rw [mem_lookup hpn hmp] at hl
        cases hl
        rw [ha2] at hcond
        exact hcond (by simpa using hchk)
      · cases hfa
  · rw [specDeleted, List.mem_filterMap] at h
    obtain ⟨a, ha, hfa⟩ := h
    split at hfa
    · rename_i hl
      cases hfa
      exact (lookup_none.mp hl) (List.mem_map.mpr ⟨(a.1, info), hmc, rfl⟩)
    · cases hfa

/-!
Claim theorems.
-/

/-- Claim C1, counterexample: `load` does not recompute the counters.
Loading a single `NEW:x` record into a fresh `DiffInfo` leaves `new = 0`
although one held record classifies as NEW; and a `DiffInfo` whose `new`
counter is 1 keeps it after loading data that holds no NEW record. -/
theorem C1_load_counters_counterexample :
    (DiffInfo.init.load (asc "NEW:x")).new = 0 ∧
    countTag .NEW (DiffInfo.init.load (asc "NEW:x"))._info = 1 ∧
    ((DiffInfo.init.add_new (asc "a")).load (asc "DELETED:z")).new = 1 ∧
    countTag .NEW ((DiffInfo.init.add_new (asc "a")).load (asc "DELETED:z"))._info = 0 := by
  decide

/-- Claim C1 (amended): the three counters equal the number of held records
of the corresponding tag on a fresh `DiffInfo` and after every `update`
call; `load`, however, replaces the record list while leaving each counter
at its value from before the load (it does not recompute them). -/
theorem C1_counters :
    countersMatch DiffInfo.init ∧
    (∀ (d : DiffInfo) (cur prev : Snapshot),
      countersMatch d → countersMatch ((d.update cur prev).1)) ∧
    (∀ (d : DiffInfo) (data : Bytes),
      (d.load data).new = d.new ∧ (d.load data).changed = d.changed ∧
        (d.load data).deleted = d.deleted) := by
  refine ⟨by decide, ?_, ?_⟩
  · exact fun d cur prev h => update_countersMatch d cur prev h
  · exact fun d data => ⟨rfl, rfl, rfl⟩

theorem C1_counters_witness :
    countersMatch DiffInfo.init ∧
    countersMatch ((DiffInfo.init.update [([107], ⟨"k1", 0⟩)] []).1) :=
  ⟨by decide, C1_counters.2.1 DiffInfo.init [([107], ⟨"k1", 0⟩)] [] (by decide)⟩

/-- Claim C2: starting from a fresh `DiffInfo`, `update(current, previous)`
holds exactly the records described by the spec — NEW for paths only in
`current`, CHANGED for paths in both with different checksums, nothing for
paths in both with equal checksums, then DELETED for paths only in
`previous`; NEW/CHANGED precede DELETED, each group in its snapshot's
iteration order, and the counters count each kind.  In particular the
claim's concrete scenario yields records `[NEW "b", DELETED "c"]` with
counts `new = 1, changed = 0, deleted = 1`. -/
theorem C2_update_records :
    (∀ (cur prev : Snapshot),
      ((DiffInfo.init.update cur prev).1)._info
          = (specRecords cur prev).map (fun tp => renderRecord tp.1 tp.2) ∧
      ((DiffInfo.init.update cur prev).1).new
          = ((specRecords cur prev).filter (fun tp => tp.1 == Tag.NEW)).length ∧
      ((DiffInfo.init.update cur prev).1).changed
          = ((specRecords cur prev).filter (fun tp => tp.1 == Tag.CHANGED)).length ∧
      ((DiffInfo.init.update cur prev).1).deleted
          = ((specRecords cur prev).filter (fun tp => tp.1 == Tag.DELETED)).length) ∧
    (((DiffInfo.init.update [([97], ⟨"chk1", 0⟩), ([98], ⟨"chk2", 1⟩)]
          [([97], ⟨"chk1", 2⟩), ([99], ⟨"chk3", 3⟩)]).1)._info
        = [renderRecord .NEW [98], renderRecord .DELETED [99]] ∧
      ((DiffInfo.init.update [([97], ⟨"chk1", 0⟩), ([98], ⟨"chk2", 1⟩)]
          [([97], ⟨"chk1", 2⟩), ([99], ⟨"chk3", 3⟩)]).1).new = 1 ∧
      ((DiffInfo.init.update [([97], ⟨"chk1", 0⟩), ([98], ⟨"chk2", 1⟩)]
          [([97], ⟨"chk1", 2⟩), ([99], ⟨"chk3", 3⟩)]).1).changed = 0 ∧
      ((DiffInfo.init.update [([97], ⟨"chk1", 0⟩), ([98], ⟨"chk2", 1⟩)]
          [([97], ⟨"chk1", 2⟩), ([99], ⟨"chk3", 3⟩)]).1).deleted = 1) := by
  constructor
  · intro cur prev
    refine ⟨?_, ?_, ?_, ?_⟩
    · rw [update_info, init_info, List.nil_append]
    · rw [update_new, init_new, Nat.zero_add]
    · rw [update_changed, init_changed, Nat.zero_add]
    · rw [update_deleted, init_deleted, Nat.zero_add]
  · decide

/-- Claim C4: the list returned by `update` is exactly the metadata entries
of the files recorded NEW or CHANGED, in the order those records were
emitted (the record list gains the rendering of the same `specNewChanged`
sequence, in the same order, followed by the DELETED records); metadata of
deleted or unchanged files never appears. -/
theorem C4_update_files :
    ∀ (d : DiffInfo) (cur prev : Snapshot),
      (d.update cur prev).2 = (specNewChanged cur prev).map Prod.snd ∧
      ((d.update cur prev).1)._info
        = d._info
          ++ ((specNewChanged cur prev).map (fun x => renderRecord x.1.1 x.1.2)
              ++ (specDeleted cur prev).map (fun tp => renderRecord tp.1 tp.2)) := by
  intro d cur prev
  constructor
  · rw [update_files]
    rfl
  · rw [update_info, specRecords]
    simp [List.map_map, Function.comp]

/-- Claim C5: `update` only appends — the records held before the call are
an unchanged prefix of the records held after it (the new state is the old
list followed by the emitted records), and no counter decreases. -/
theorem C5_update_appends :
    ∀ (d : DiffInfo) (cur prev : Snapshot),
      ((d.update cur prev).1)._info
          = d._info ++ (specRecords cur prev).map (fun tp => renderRecord tp.1 tp.2) ∧
      d.new ≤ ((d.update cur prev).1).new ∧
      d.changed ≤ ((d.update cur prev).1).changed ∧
      d.deleted ≤ ((d.update cur prev).1).deleted := by
  intro d cur prev
  refine ⟨update_info d cur prev, ?_, ?_, ?_⟩
  · rw [update_new]
    omega
  · rw [update_changed]
    omega
  · rw [update_deleted]
    omega

/-- Records produced by a diff over serialization-safe paths are non-empty,
newline-free, and strip-invariant. -/
theorem update_records_good (cur prev : Snapshot)
    (hc : ∀ n ∈ cur.map Prod.fst, goodPath n = true)
    (hp : ∀ n ∈ prev.map Prod.fst, goodPath n = true) :
    ∀ r ∈ ((DiffInfo.init.update cur prev).1)._info,
      r ≠ [] ∧ (∀ b ∈ r, b ≠ 10) ∧ stripBytes r = r := by
  intro r hr
  rw [update_info, init_info, List.nil_append, List.mem_map] at hr
  obtain ⟨⟨t, p⟩, htp, he⟩ := hr
  subst he
  have hgood : goodPath p = true := by
    rcases specRecords_path_mem cur prev t p htp with h | h
    · exact hc p h
    · exact hp p h
  exact ⟨renderRecord_ne_nil t p, renderRecord_no_newline t p hgood,
    stripBytes_self _ (renderRecord_head t p) (renderRecord_last t p hgood)⟩

/-- Claim C3, counterexample: a diff whose path ends in a space byte does
not survive the `dump`/`load` round trip — `load` strips the trailing
space from the record, so the loaded record sequence differs. -/
theorem C3_roundtrip_counterexample :
    ((DiffInfo.init.update [([97, 32], ⟨"c1", 0⟩)] []).1.load
        ((DiffInfo.init.update [([97, 32], ⟨"c1", 0⟩)] []).1).dump)._info
      ≠ ((DiffInfo.init.update [([97, 32], ⟨"c1", 0⟩)] []).1)._info := by
  decide

/-- Claim C3 (amended): for diffs over snapshots whose paths contain no
newline byte and do not end in ASCII whitespace, `load` after `dump`
restores exactly the held record sequence, and recomputing the counters by
classifying the loaded records yields the same counters as the direct
construction. -/
theorem C3_roundtrip (cur prev : Snapshot)
    (hc : ∀ n ∈ cur.map Prod.fst, goodPath n = true)
    (hp : ∀ n ∈ prev.map Prod.fst, goodPath n = true) :
    (((DiffInfo.init.update cur prev).1).load
        ((DiffInfo.init.update cur prev).1).dump)._info
      = ((DiffInfo.init.update cur prev).1)._info ∧
    countTag .NEW (((DiffInfo.init.update cur prev).1).load
        ((DiffInfo.init.update cur prev).1).dump)._info
      = ((DiffInfo.init.update cur prev).1).new ∧
    countTag .CHANGED (((DiffInfo.init.update cur prev).1).load
        ((DiffInfo.init.update cur prev).1).dump)._info
      = ((DiffInfo.init.update cur prev).1).changed ∧
    countTag .DELETED (((DiffInfo.init.update cur prev).1).load
        ((DiffInfo.init.update cur prev).1).dump)._info
      = ((DiffInfo.init.update cur prev).1).deleted := by
  have hg := update_records_good cur prev hc hp
  have h1 : (((DiffInfo.init.update cur prev).1).load
      ((DiffInfo.init.update cur prev).1).dump)._info
      = ((DiffInfo.init.update cur prev).1)._info :=
    load_dump_of_good _ (fun r hr => (hg r hr).1) (fun r hr => (hg r hr).2.1)
      (fun r hr => (hg r hr).2.2)
  have hcm : countersMatch ((DiffInfo.init.update cur prev).1) :=
    update_countersMatch DiffInfo.init cur prev (by decide)
  refine ⟨h1, ?_, ?_, ?_⟩
  · rw [h1, hcm.1]
  · rw [h1, hcm.2.1]
  · rw [h1, hcm.2.2]

theorem C3_roundtrip_witness :
    (∀ n ∈ ([([97], ⟨"c1", 0⟩), ([98], ⟨"c2", 1⟩)] : Snapshot).map Prod.fst,
      goodPath n = true) ∧
    (((DiffInfo.init.update [([97], ⟨"c1", 0⟩), ([98], ⟨"c2", 1⟩)]
        [([99], ⟨"c3", 2⟩)]).1).load
        ((DiffInfo.init.update [([97], ⟨"c1", 0⟩), ([98], ⟨"c2", 1⟩)]
        [([99], ⟨"c3", 2⟩)]).1).dump)._info
      = ((DiffInfo.init.update [([97], ⟨"c1", 0⟩), ([98], ⟨"c2", 1⟩)]
        [([99], ⟨"c3", 2⟩)]).1)._info ∧
    countTag .NEW (((DiffInfo.init.update [([97], ⟨"c1", 0⟩), ([98], ⟨"c2", 1⟩)]
        [([99], ⟨"c3", 2⟩)]).1).load
        ((DiffInfo.init.update [([97], ⟨"c1", 0⟩), ([98], ⟨"c2", 1⟩)]
        [([99], ⟨"c3", 2⟩)]).1).dump)._info
      = ((DiffInfo.init.update [([97], ⟨"c1", 0⟩), ([98], ⟨"c2", 1⟩)]
        [([99], ⟨"c3", 2⟩)]).1).new := by
  refine ⟨by decide, ?_, ?_⟩
  · exact (C3_roundtrip [([97], ⟨"c1", 0⟩), ([98], ⟨"c2", 1⟩)] [([99], ⟨"c3", 2⟩)]
      (by decide) (by decide)).1
  · exact (C3_roundtrip [([97], ⟨"c1", 0⟩), ([98], ⟨"c2", 1⟩)] [([99], ⟨"c3", 2⟩)]
      (by decide) (by decide)).2.1

/-- Claim C6: with dict-like (duplicate-free) keys, reordering the two
snapshots permutes the held records but never changes which records exist,
and a path present in both snapshots with equal checksums produces no
record of any tag. -/
theorem C6_order_independent (cur1 cur2 prev1 prev2 : Snapshot)
    (hcn : (cur1.map Prod.fst).Nodup) (hpn : (prev1.map Prod.fst).Nodup)
    (hc : cur1.Perm cur2) (hp : prev1.Perm prev2) :
    (((DiffInfo.init.update cur1 prev1).1)._info).Perm
        (((DiffInfo.init.update cur2 prev2).1)._info) ∧
    (∀ (name : Bytes) (info old : FileInfo),
      (name, info) ∈ cur1 → (name, old) ∈ prev1 → old.chksum = info.chksum →
      ∀ t, renderRecord t name ∉ ((DiffInfo.init.update cur1 prev1).1)._info) := by
  have hlookp : ∀ k, prev1.lookup k = prev2.lookup k := perm_lookup hp hpn
  have hlookc : ∀ k, cur1.lookup k = cur2.lookup k := perm_lookup hc hcn
  constructor
  · have hperm : (specRecords cur1 prev1).Perm (specRecords cur2 prev2) := by
      rw [specRecords, specRecords]
      apply List.Perm.append
      · apply List.Perm.map
        rw [specNewChanged, specNewChanged]
        have efun : (fun p : Bytes × FileInfo =>
            match prev1.lookup p.1 with
            | none => some ((Tag.NEW, p.1), p.2)
            | some old =>
              if old.chksum ≠ p.2.chksum then some ((Tag.CHANGED, p.1), p.2) else none)
          = (fun p : Bytes × FileInfo =>
            match prev2.lookup p.1 with
            | none => some ((Tag.NEW, p.1), p.2)
            | some old =>
              if old.chksum ≠ p.2.chksum then some ((Tag.CHANGED, p.1), p.2) else none) := by
          funext q
          rw [hlookp q.1]
        rw [efun]
        exact hc.filterMap _
      · rw [specDeleted, specDeleted]
        have efun : (fun p : Bytes × FileInfo =>
            match cur1.lookup p.1 with
            | none => some (Tag.DELETED, p.1)
            | some _ => none)
          = (fun p : Bytes × FileInfo =>
            match cur2.lookup p.1 with
            | none => some (Tag.DELETED, p.1)
            | some _ => none) := by
          funext q
          rw [hlookc q.1]
        rw [efun]
        exact hp.filterMap _
    rw [update_info, update_info, init_info, List.nil_append, List.nil_append]
    exact hperm.map _
  · intro name info old hmc hmp hchk t hmem
    rw [update_info, init_info, List.nil_append, List.mem_map] at hmem
    obtain ⟨⟨t', p'⟩, htp, he⟩ := hmem
    obtain ⟨h1, h2⟩ := renderRecord_inj t' t p' name he
    subst h1
    subst h2
    exact unchanged_no_record cur1 prev1 hcn hpn p' info old hmc hmp hchk t' htp

theorem C6_order_independent_witness :
    (([([97], ⟨"c1", 0⟩), ([98], ⟨"c2", 1⟩)] : Snapshot).map Prod.fst).Nodup ∧
    ([([97], ⟨"c1", 0⟩), ([98], ⟨"c2", 1⟩)] : Snapshot).Perm
        [([98], ⟨"c2", 1⟩), ([97], ⟨"c1", 0⟩)] ∧
    (((DiffInfo.init.update [([97], ⟨"c1", 0⟩), ([98], ⟨"c2", 1⟩)]
        [([97], ⟨"c1", 2⟩)]).1)._info).Perm
      (((DiffInfo.init.update [([98], ⟨"c2", 1⟩), ([97], ⟨"c1", 0⟩)]
        [([97], ⟨"c1", 2⟩)]).1)._info) := by
  refine ⟨by decide, ?_, ?_⟩
  · decide
  · exact (C6_order_independent [([97], ⟨"c1", 0⟩), ([98], ⟨"c2", 1⟩)]
      [([98], ⟨"c2", 1⟩), ([97], ⟨"c1", 0⟩)] [([97], ⟨"c1", 2⟩)] [([97], ⟨"c1", 2⟩)]
      (by decide) (by decide) (by decide) (by decide)).1

/-- Claim C7: when the remote checksum companion is missing, `requests.get`
on `url + ".sha256"` yields an error page whose text matches no checksum
the signer can produce (the hypotheses `hdisk`/`hdl` state this for the
contents at hand); then a call with `check_file=False` still succeeds and
returns the target path, while a call with `check_file=True` raises
`ArchiveError` — it never silently returns an unverified file. -/
theorem C7_missing_checksum (chk : ChecksumFun) (env : RemoteEnv)
    (onDisk : Option Bytes) (url tgt : String)
    (hhead : env.headStatus = 200)
    (hlen : env.contentLength.isSome)
    (hdisk : ∀ data, onDisk = some data → chk data ≠ env.shaText)
    (hdl : chk env.content ≠ env.shaText) :
    (download_file chk env onDisk url (some tgt) false).1 = .ok tgt ∧
    (download_file chk env onDisk url (some tgt) true).1
      = .error (.ArchiveError tgt) := by
  obtain ⟨n, hn⟩ := Option.isSome_iff_exists.mp hlen
  have hdl' : env.shaText ≠ chk env.content := fun he => hdl he.symm
  constructor
  · cases onDisk with
    | some data => simp [download_file, check_exists, hhead]
    | none => simp [download_file, check_exists, hhead, hn]
  · cases onDisk with
    | some data =>
      have hd := hdisk data rfl
      simp [download_file, check_exists, hhead, hn, hd, hdl']
    | none =>
      simp [download_file, check_exists, hhead, hn, hdl']

theorem C7_missing_checksum_witness :
    (download_file (fun _ => "aaa") ⟨200, "404 page", some 3, [1, 2, 3]⟩
        (some [9]) "http://h/f" (some "f") false).1 = .ok "f" ∧
    (download_file (fun _ => "aaa") ⟨200, "404 page", some 3, [1, 2, 3]⟩
        (some [9]) "http://h/f" (some "f") true).1
      = .error (.ArchiveError "f") :=
  C7_missing_checksum (fun _ => "aaa") ⟨200, "404 page", some 3, [1, 2, 3]⟩
    (some [9]) "http://h/f" "f" rfl rfl
    (fun data h => by cases h; decide) (by decide)

/-- Claim C8: with verification requested, if the checksum of the
downloaded bytes differs from the expected checksum text, `download_file`
raises `ArchiveError` naming the target path and the file is left on disk
holding the wrong bytes (it is not deleted). -/
theorem C8_integrity (chk : ChecksumFun) (env : RemoteEnv)
    (onDisk : Option Bytes) (url tgt : String)
    (hhead : env.headStatus = 200)
    (hlen : env.contentLength.isSome)
    (hdisk : ∀ data, onDisk = some data → chk data ≠ env.shaText)
    (hbad : chk env.content ≠ env.shaText) :
    download_file chk env onDisk url (some tgt) true
      = (.error (.ArchiveError tgt), some env.content) := by
  obtain ⟨n, hn⟩ := Option.isSome_iff_exists.mp hlen
  have hbad' : env.shaText ≠ chk env.content := fun he => hbad he.symm
  cases onDisk with
  | some data =>
    have hd := hdisk data rfl
    simp [download_file, check_exists, hhead, hn, hd, hbad']
  | none =>
    simp [download_file, check_exists, hhead, hn, hbad']

theorem C8_integrity_witness :
    download_file (fun _ => "deadbeef") ⟨200, "feedface", some 2, [5, 6]⟩
        none "http://h/a.tar" (some "a.tar") true
      = (.error (.ArchiveError "a.tar"), some [5, 6]) :=
  C8_integrity (fun _ => "deadbeef") ⟨200, "feedface", some 2, [5, 6]⟩
    none "http://h/a.tar" "a.tar" rfl rfl
    (fun data h => by cases h) (by decide)

/-- Claim C9: the claim says a response with no declared content length
still downloads (progress degrades to an unknown total); the code instead
computes `int(req.headers.get('content-length'))`, and `int(None)` raises
`TypeError` before any chunk is written.  With a content length declared,
the otherwise identical call succeeds. -/
theorem C9_no_content_length :
    download_file (fun _ => "00") ⟨200, "s", none, [1, 2]⟩ none
        "http://h/f" (some "f") false
      = (.error .TypeErrorIntNone, none) ∧
    download_file (fun _ => "00") ⟨200, "s", some 2, [1, 2]⟩ none
        "http://h/f" (some "f") false
      = (.ok "f", some [1, 2]) := by
  constructor
  · rfl
  · rfl

/-- Claim C10: `load` splits its input on newline bytes, strips each line
of surrounding ASCII whitespace and drops lines that are then empty, so
every held record after a `load` is non-empty with no leading or trailing
whitespace; consequently a record whose path ends in whitespace does not
survive a `dump`/`load` round trip unchanged. -/
theorem C10_load_strips :
    (∀ (d : DiffInfo) (data : Bytes),
      (d.load data)._info
        = ((data.splitOn 10).map stripBytes).filter (fun l => !l.isEmpty)) ∧
    (∀ (d : DiffInfo) (data : Bytes), ∀ r ∈ (d.load data)._info,
      r ≠ [] ∧ (∀ b, r.head? = some b → isSpaceB b = false) ∧
      (∀ b, r.getLast? = some b → isSpaceB b = false)) ∧
    (((DiffInfo.init.add_new (asc "p\t")).load
        (DiffInfo.init.add_new (asc "p\t")).dump)._info
      ≠ (DiffInfo.init.add_new (asc "p\t"))._info) := by
  refine ⟨fun d data => rfl, ?_, by decide⟩
  intro d data r hr
  have hr' : r ∈ ((data.splitOn 10).map stripBytes).filter (fun l => !l.isEmpty) := hr
  rw [List.mem_filter] at hr'
  obtain ⟨hmem, hne⟩ := hr'
  rw [List.mem_map] at hmem
  obtain ⟨x, hx, he⟩ := hmem
  subst he
  refine ⟨?_, stripBytes_head x, stripBytes_last x⟩
  intro h0
  rw [h0] at hne
  simp at hne

theorem C10_load_strips_witness :
    asc "NEW:a" ∈ (DiffInfo.init.load (asc "  NEW:a  \nX"))._info ∧
    (asc "NEW:a" ≠ [] ∧
      (∀ b, (asc "NEW:a").head? = some b → isSpaceB b = false) ∧
      (∀ b, (asc "NEW:a").getLast? = some b → isSpaceB b = false)) :=
  ⟨by decide, C10_load_strips.2.1 DiffInfo.init (asc "  NEW:a  \nX")
    (asc "NEW:a") (by decide)⟩
